import Mathlib

/-!
# Verification of the XianyuAutoAgent process-supervisor / log fan-out core

Shallow embedding, in Lean 4, of the parts of the repository that the
specification's claims are about:

* `ProcessManager` (src/web_manager/backend/services/process_manager.py) and
  the Flask-side `ProcessManager` (src/web_app.py): start/stop/status state
  machine over the worker-process handle;
* `LogMonitor` (src/web_manager/backend/services/log_monitor.py): the tail
  loop, the ordered regex pattern chain, the history buffer, and `search_logs`;
* `LogService` (src/web_frontend/services/log_service.py): the frontend line
  parser and the event-driven `read_new_logs` reader;
* `ConnectionManager.broadcast_log` (src/web_manager/backend/app.py).

Conventions used throughout the embedding:

* text is modelled as `List Char` (`Str`); Python's `str.strip`, slicing and
  `in` are given explicit faithful counterparts;
* machine interaction (does a pid exist? did `terminate`/`wait` raise? did a
  file read raise?) is passed in as explicit oracle parameters, one per
  library call site that can fail, so each Python `try/except` branch is an
  explicit case of the Lean function;
* wall-clock time (`datetime.now()`) is an explicit `now : Instant` argument;
* Python dict results (`{'success': ..., 'message': ..., 'pid': ...}`) become
  structures with the same field names.
-/

/-- Characters, as Python reads them from UTF-8 text. -/
abbrev Str := List Char

namespace XianyuCore

/-! ## Shared small utilities mirroring Python string semantics -/

/-- Python `str.isspace` members relevant to `str.strip()` (no argument):
space, tab, newline, carriage return, form feed, vertical tab. -/
def isPySpace (c : Char) : Bool :=
  c = ' ' || c = '\t' || c = '\n' || c = '\r' || c = '\x0c' || c = '\x0b'

/-- Python `str.strip()`: drop leading and trailing whitespace. -/
def pyStrip (s : Str) : Str :=
  (s.dropWhile isPySpace).reverse.dropWhile isPySpace |>.reverse

/-- Python slice `l[-n:]` for a non-negative `n`.  The pitfall is explicit:
`-0 = 0`, so `l[-0:]` is `l[0:]`, the whole list, not the empty one. -/
def pyTail (l : List α) (n : Nat) : List α :=
  if n = 0 then l else l.drop (l.length - n)

/-- Python `sub in s` (substring containment). -/
def pyContains (s sub : Str) : Bool :=
  match s with
  | [] => sub.isEmpty
  | _ :: t => sub.isPrefixOf s || pyContains t sub

/-- Python `str.lower()` restricted to ASCII case mapping (the identifiers
and level names handled by this program are ASCII). -/
def pyLower (s : Str) : Str := s.map Char.toLower

/-- Python `str.upper()` restricted to ASCII case mapping. -/
def pyUpper (s : Str) : Str := s.map Char.toUpper

end XianyuCore

namespace ProcessManagerM

/-!
## `ProcessManager` (src/web_manager/backend/services/process_manager.py)

The backend (FastAPI/psutil) supervisor.  The state we model is exactly the
triple of instance attributes the claims mention:

* `process`        : `self.process : Optional[subprocess.Popen]`, as the pid
                     of the handle it holds (or `none`);
* `processInfoPid` : the `'pid'` key of `self.process_info`; the dict is
                     non-empty iff it holds a pid, so `none` models `{}`
                     (`_cleanup_process_info` sets `process_info = {}`);
* `startTimeSet`   : whether `self.start_time` is set.

The OS is an oracle `alive : Nat → Bool` (`psutil.Process(pid)` succeeds iff
`alive pid`), and the outcome of the `terminate / wait / kill` block of
`stop_process` is an explicit `TermOutcome` parameter.
-/

/-- Supervisor-owned mutable state of `ProcessManager.__init__`. -/
structure PMState where
  process : Option Nat
  processInfoPid : Option Nat
  startTimeSet : Bool
  deriving Repr, DecidableEq

/-- `ProcessManager._cleanup_process_info`: `process = None`,
`process_info = {}`, `start_time = None`. -/
def cleanupProcessInfo (_s : PMState) : PMState :=
  { process := none, processInfoPid := none, startTimeSet := false }

/-- Result dict of `ProcessManager.get_status` restricted to the fields the
claims talk about (`is_running`, `pid`).  The numeric fields are all `None`
when `is_running` is false, which the constructors below make explicit. -/
structure PMStatus where
  is_running : Bool
  pid : Option Nat
  deriving Repr, DecidableEq

/-- `ProcessManager.get_status`: if `process_info` holds a pid, probe it with
`psutil.Process`; on `NoSuchProcess` clean up and fall through to the
not-running result.  The query mutates state (self-healing), so it returns
the new state alongside the status dict.  The probe's modelled failure mode
is `NoSuchProcess` (`alive pid = false`); the outer `except Exception`
branch of the Python method — which also reports not-running, without
cleaning up — covers library faults outside the pid's existence and is not
reachable in this model.  The resource fields (`cpu_percent` etc.) are
dropped: the claims only concern `is_running` and `pid`. -/
def get_status (alive : Nat → Bool) (s : PMState) : PMStatus × PMState :=
  match s.processInfoPid with
  | some pid =>
      if alive pid then
        ({ is_running := true, pid := some pid }, s)
      else
        ({ is_running := false, pid := none }, cleanupProcessInfo s)
  | none => ({ is_running := false, pid := none }, s)

/-- Outcome of the `proc.terminate()/wait()/kill()` block inside
`stop_process`:

* `graceful`      — `terminate` then `wait(timeout=10)` returned;
* `forcedKill`    — `wait` timed out, `kill` then `wait(timeout=5)` returned;
* `noSuchProcess` — `psutil.NoSuchProcess` was raised (caught locally);
* `raisesStillAlive` / `raisesGone` — some other exception escaped the block
  (caught only by the outer `except Exception`), with the worker respectively
  still alive or gone afterwards. -/
inductive TermOutcome
  | graceful
  | forcedKill
  | noSuchProcess
  | raisesStillAlive
  | raisesGone
  deriving Repr, DecidableEq

/-- Does the `TermOutcome` reach the outer `except Exception` handler? -/
def TermOutcome.raises : TermOutcome → Bool
  | .raisesStillAlive => true
  | .raisesGone => true
  | _ => false

/-- Result dict of `start_process` / `stop_process`:
`{'success': ..., 'message': ..., 'pid': ...}`. -/
structure OpResult where
  success : Bool
  message : String
  pid : Option Nat
  deriving Repr, DecidableEq

/-- `ProcessManager.stop_process`.  Control flow, from the source:

1. `status = await self.get_status()`;
2. if not running, return `success=True, '进程未在运行', pid=None`;
3. run the terminate/wait/kill block (outcome `out`); `NoSuchProcess`
   is caught and logged; any other exception unwinds to the outer handler,
   which returns `success=False` **without** calling
   `_cleanup_process_info`;
4. otherwise `_cleanup_process_info()` and return
   `success=True, '进程已停止', pid`.

The `await self._stop_monitoring()` between steps 2 and 3 cancels the
monitoring task and swallows its `CancelledError`; it touches none of the
modelled state and cannot raise, so it has no counterpart here. -/
def stop_process (alive : Nat → Bool) (out : TermOutcome) (s : PMState) :
    OpResult × PMState :=
  let (st, s1) := get_status alive s
  if st.is_running = false then
    ({ success := true, message := "进程未在运行", pid := none }, s1)
  else
    match out with
    | .graceful | .forcedKill | .noSuchProcess =>
        ({ success := true, message := "进程已停止", pid := st.pid },
         cleanupProcessInfo s1)
    | .raisesStillAlive | .raisesGone =>
        ({ success := false, message := "停止进程时发生异常", pid := none }, s1)

end ProcessManagerM

namespace WebAppPM

/-!
## `ProcessManager` (src/web_app.py)

The Flask-side supervisor.  Its state is `self.status` (one of `"stopped"`,
`"starting"`, `"running"`, `"stopping"`), `self.process` and
`self.start_time`; stop results are `(success : Bool, message : String)`
pairs.  The outcome of the `terminate / wait / kill` block is again an
explicit oracle.
-/

/-- `self.status` values. -/
inductive WAStatus
  | stopped
  | starting
  | running
  | stopping
  deriving Repr, DecidableEq

/-- Supervisor state of the Flask `ProcessManager`. -/
structure WAState where
  status : WAStatus
  process : Option Nat
  startTimeSet : Bool
  deriving Repr, DecidableEq

/-- Outcome of the `self.process.terminate()/wait()/kill()` block inside
`stop_main_process`: either the block returns (including the
`TimeoutExpired → kill → wait` path), or some exception escapes to the
`except Exception` handler. -/
inductive WAStopOutcome
  | ok
  | timeoutThenKill
  | raises
  deriving Repr, DecidableEq

/-- `ProcessManager.stop_main_process` (src/web_app.py).  From the source:

1. if `self.status != "running"`, return `(False, "主进程未在运行")`;
2. set `status = "stopping"`; if `self.process` is set, terminate/wait
   (force-kill on timeout), then `self.process = None`;
3. `status = "stopped"`, `start_time = None`, return `(True, "主进程已停止")`;
4. on exception: `status = "stopped"` and return `(False, ...)` — note that
   `self.process` and `self.start_time` are **not** touched by the handler. -/
def stop_main_process (out : WAStopOutcome) (s : WAState) :
    (Bool × String) × WAState :=
  if s.status ≠ WAStatus.running then
    ((false, "主进程未在运行"), s)
  else
    match out with
    | .ok | .timeoutThenKill =>
        ((true, "主进程已停止"),
         { status := .stopped, process := none, startTimeSet := false })
    | .raises =>
        ((false, "停止失败"), { s with status := .stopped })

end WebAppPM

namespace TailM

open XianyuCore

/-!
## Tailing cursors

Two readers track a byte offset into the log file:

* `LogMonitor._monitoring_loop` (src/web_manager/backend/services/log_monitor.py,
  lines 145–181) together with `_read_new_content` — the polling tail loop of
  the backend;
* `LogService.read_new_logs` (src/web_frontend/services/log_service.py,
  lines 290–316) — the watchdog-event-driven reader of the frontend.

A file is `Option Str` (`none` = the file does not exist).  One iteration of
each reader is a pure step `file → offset → delivered bytes × new offset`.
Read failure (`open`/`read` raising inside `_read_new_content`, whose
`except` returns `""`) is an explicit `readOk` oracle.
-/

/-- `LogMonitor._read_new_content start_pos end_pos`: seek to `start_pos` and
read `end_pos - start_pos` characters; any exception is caught and yields the
empty string. -/
def readNewContent (content : Str) (startPos endPos : Nat) (readOk : Bool) :
    Str :=
  if readOk then (content.drop startPos).take (endPos - startPos) else []

/-- One iteration of the `while self.is_monitoring` body of
`LogMonitor._monitoring_loop`, returning the bytes handed to
`_parse_log_content` (empty when nothing was delivered) and the value of
`last_position` after the iteration:

* file missing → sleep and continue, offset untouched;
* `current_size > last_position` → read the gap (delivering `""` if the read
  failed), then `last_position = current_size` **unconditionally**;
* `current_size < last_position` → truncation detected, `last_position = 0`;
* equal sizes → nothing. -/
def monitorPoll (file : Option Str) (readOk : Bool) (lastPos : Nat) :
    Str × Nat :=
  match file with
  | none => ([], lastPos)
  | some content =>
      let size := content.length
      if size > lastPos then
        (readNewContent content lastPos size readOk, size)
      else if size < lastPos then
        ([], 0)
      else
        ([], lastPos)

/-- One run of `LogService.read_new_logs`: seek to `last_position`, read all
remaining lines, set `last_position = file.tell()`.  Seeking beyond the end of
the file is legal in Python: the read then returns nothing and `tell()` still
reports the out-of-range seek position, so the new offset is
`max lastPos file.length`.  There is no truncation check. -/
def readNewLogsStep (file : Option Str) (lastPos : Nat) : Str × Nat :=
  match file with
  | none => ([], lastPos)
  | some content =>
      (content.drop lastPos, max lastPos content.length)

end TailM

namespace LogMonitorP

open XianyuCore

/-!
## `LogMonitor` line parsing (src/web_manager/backend/services/log_monitor.py)

`_parse_log_line` tries the ordered dict of compiled patterns
(`loguru`, `standard`, `simple` — Python dicts preserve insertion order)
with `pattern.match(line.strip())`, and `_normalize_timestamp` tries three
`datetime.strptime` formats.

The patterns involved are simple enough that Python's backtracking regex
engine behaves deterministically on them (every quantified class is disjoint
from the character that follows it), except for the `\w+\s*\w+` level/logger
split of the `standard` pattern, whose single backtracking step is encoded
explicitly below.  Character classes are modelled at ASCII precision
(`\w` = ASCII alphanumeric or `_`, `\d` = ASCII digit), which is exact on the
ASCII identifiers, level names and digits these patterns are used on.

`datetime.now()` is an explicit `now : Instant` argument; a stored timestamp
is modelled as the instant its `isoformat()` string denotes
(`datetime.fromisoformat` round-trips it).
-/

/-- A naive `datetime` instant (year, month, day, hour, minute, second,
microsecond). -/
structure Instant where
  year : Nat
  month : Nat
  day : Nat
  hour : Nat
  minute : Nat
  second : Nat
  usec : Nat
  deriving Repr, DecidableEq

/-- `datetime <` : lexicographic on the components. -/
def Instant.lt (a b : Instant) : Bool :=
  if a.year ≠ b.year then a.year < b.year
  else if a.month ≠ b.month then a.month < b.month
  else if a.day ≠ b.day then a.day < b.day
  else if a.hour ≠ b.hour then a.hour < b.hour
  else if a.minute ≠ b.minute then a.minute < b.minute
  else if a.second ≠ b.second then a.second < b.second
  else a.usec < b.usec

/-- Numeric value of an ASCII digit. -/
def digitVal (c : Char) : Nat := c.toNat - '0'.toNat

/-- Numeric value of a digit string (most significant first). -/
def natOfDigits (ds : Str) : Nat := ds.foldl (fun a c => a * 10 + digitVal c) 0

/-- Exactly `n` leading ASCII digits; returns them and the remainder. -/
def takeExactDigits (n : Nat) (s : Str) : Option (Str × Str) :=
  let pre := s.take n
  if pre.all Char.isDigit && pre.length = n then some (pre, s.drop n) else none

/-- Consume one expected literal character. -/
def litChar (c : Char) (s : Str) : Option Str :=
  match s with
  | x :: r => if x = c then some r else none
  | [] => none

/-- Try field-alternatives in regex alternation order, backtracking into the
continuation `k` (regex semantics for e.g. `1[0-2]|0[1-9]|[1-9]`). -/
def tryEach (cands : List (Nat × Str)) (k : Nat → Str → Option α) : Option α :=
  match cands with
  | [] => none
  | (v, r) :: t =>
      match k v r with
      | some a => some a
      | none => tryEach t k

/-- CPython `_strptime` `%m` field: `1[0-2]|0[1-9]|[1-9]`, candidates in
alternation order. -/
def monthCands : Str → List (Nat × Str)
  | c1 :: c2 :: r =>
      (if c1 = '1' && '0' ≤ c2 && c2 ≤ '2' then [(10 + digitVal c2, r)] else []) ++
      (if c1 = '0' && '1' ≤ c2 && c2 ≤ '9' then [(digitVal c2, r)] else []) ++
      (if '1' ≤ c1 && c1 ≤ '9' then [(digitVal c1, c2 :: r)] else [])
  | [c1] => if '1' ≤ c1 && c1 ≤ '9' then [(digitVal c1, [])] else []
  | [] => []

/-- CPython `%d` field: `3[01]|[12]\d|0[1-9]|[1-9]`. -/
def dayCands : Str → List (Nat × Str)
  | c1 :: c2 :: r =>
      (if c1 = '3' && '0' ≤ c2 && c2 ≤ '1' then [(30 + digitVal c2, r)] else []) ++
      (if ('1' ≤ c1 && c1 ≤ '2') && c2.isDigit then [(10 * digitVal c1 + digitVal c2, r)] else []) ++
      (if c1 = '0' && '1' ≤ c2 && c2 ≤ '9' then [(digitVal c2, r)] else []) ++
      (if '1' ≤ c1 && c1 ≤ '9' then [(digitVal c1, c2 :: r)] else [])
  | [c1] => if '1' ≤ c1 && c1 ≤ '9' then [(digitVal c1, [])] else []
  | [] => []

/-- CPython `%H` field: `2[0-3]|[0-1]\d|\d`. -/
def hourCands : Str → List (Nat × Str)
  | c1 :: c2 :: r =>
      (if c1 = '2' && '0' ≤ c2 && c2 ≤ '3' then [(20 + digitVal c2, r)] else []) ++
      (if ('0' ≤ c1 && c1 ≤ '1') && c2.isDigit then [(10 * digitVal c1 + digitVal c2, r)] else []) ++
      (if c1.isDigit then [(digitVal c1, c2 :: r)] else [])
  | [c1] => if c1.isDigit then [(digitVal c1, [])] else []
  | [] => []

/-- CPython `%M` field: `[0-5]\d|\d`. -/
def minuteCands : Str → List (Nat × Str)
  | c1 :: c2 :: r =>
      (if ('0' ≤ c1 && c1 ≤ '5') && c2.isDigit then [(10 * digitVal c1 + digitVal c2, r)] else []) ++
      (if c1.isDigit then [(digitVal c1, c2 :: r)] else [])
  | [c1] => if c1.isDigit then [(digitVal c1, [])] else []
  | [] => []

/-- CPython `%S` field: `6[0-1]|[0-5]\d|\d` (leap seconds pass the regex but
are rejected by the `datetime` constructor afterwards). -/
def secondCands : Str → List (Nat × Str)
  | c1 :: c2 :: r =>
      (if c1 = '6' && '0' ≤ c2 && c2 ≤ '1' then [(60 + digitVal c2, r)] else []) ++
      (if ('0' ≤ c1 && c1 ≤ '5') && c2.isDigit then [(10 * digitVal c1 + digitVal c2, r)] else []) ++
      (if c1.isDigit then [(digitVal c1, c2 :: r)] else [])
  | [c1] => if c1.isDigit then [(digitVal c1, [])] else []
  | [] => []

/-- CPython `%f` field, `[0-9]{1,6}` right-padded to microseconds, plus the
`strptime` whole-string check (`found.end()` must reach the end). -/
def parseFrac (s : Str) : Option Nat :=
  let ds := s.takeWhile Char.isDigit
  let r := s.dropWhile Char.isDigit
  if ds.isEmpty || ds.length > 6 || !r.isEmpty then none
  else some (natOfDigits ds * 10 ^ (6 - ds.length))

/-- Gregorian leap year. -/
def isLeap (y : Nat) : Bool := y % 4 = 0 && (y % 100 ≠ 0 || y % 400 = 0)

/-- Days in a month (months are 1-based and already in `1..12` here). -/
def daysInMonth (y m : Nat) : Nat :=
  if m = 2 then (if isLeap y then 29 else 28)
  else if m = 4 || m = 6 || m = 9 || m = 11 then 30
  else 31

/-- The `datetime(...)` constructor's validation, applied by `strptime` after
its regex matched: year `1..9999`, calendar-valid day, second `0..59`. -/
def validateDT (i : Instant) : Option Instant :=
  if 1 ≤ i.year && i.day ≤ daysInMonth i.year i.month && i.second ≤ 59
  then some i else none

/-- Regex phase of `strptime(s, "%Y-%m-%d %H:%M:%S" ++ frac)` where `frac` is
`".%f"`, `",%f"` or absent (`fracSep = none`). -/
def strptimeRaw (fracSep : Option Char) (s : Str) : Option Instant :=
  (takeExactDigits 4 s).bind fun (ys, r1) =>
  (litChar '-' r1).bind fun r2 =>
  tryEach (monthCands r2) fun mo r3 =>
  (litChar '-' r3).bind fun r4 =>
  tryEach (dayCands r4) fun d r5 =>
  (litChar ' ' r5).bind fun r6 =>
  tryEach (hourCands r6) fun h r7 =>
  (litChar ':' r7).bind fun r8 =>
  tryEach (minuteCands r8) fun mi r9 =>
  (litChar ':' r9).bind fun r10 =>
  tryEach (secondCands r10) fun sec r11 =>
  match fracSep with
  | some sep =>
      (litChar sep r11).bind fun r12 =>
      (parseFrac r12).map fun us =>
      ⟨natOfDigits ys, mo, d, h, mi, sec, us⟩
  | none =>
      if r11.isEmpty then some ⟨natOfDigits ys, mo, d, h, mi, sec, 0⟩ else none

/-- `datetime.strptime` for one of the three formats: regex phase, then
constructor validation (a failure of either is the `ValueError` the caller
catches). -/
def strptime (fracSep : Option Char) (s : Str) : Option Instant :=
  (strptimeRaw fracSep s).bind validateDT

/-- `LogMonitor._normalize_timestamp`: empty string → now; otherwise try
`'%Y-%m-%d %H:%M:%S.%f'`, `'%Y-%m-%d %H:%M:%S,%f'`, `'%Y-%m-%d %H:%M:%S'` in
order, falling back to now when every format raises. -/
def normalizeTimestamp (now : Instant) (ts : Str) : Instant :=
  if ts.isEmpty then now
  else
    match strptime (some '.') ts with
    | some i => i
    | none =>
        match strptime (some ',') ts with
        | some i => i
        | none =>
            match strptime none ts with
            | some i => i
            | none => now

/-- Python `\w` at ASCII precision. -/
def isWordChar (c : Char) : Bool := c.isAlphanum || c = '_'

/-- `\s*`: drop the (deterministically maximal) whitespace run. -/
def skipSpaces (s : Str) : Str := s.dropWhile isPySpace

/-- The 23-character timestamp shape
`\d{4}-\d{2}-\d{2} \d{2}:\d{2}:\d{2}` + `sep` + `\d{3}` shared by the
`loguru` (`sep = '.'`) and `standard` (`sep = ','`) patterns; returns the
captured text and the remainder. -/
def matchTs23 (sep : Char) (s : Str) : Option (Str × Str) :=
  (takeExactDigits 4 s).bind fun (_, r1) =>
  (litChar '-' r1).bind fun r2 =>
  (takeExactDigits 2 r2).bind fun (_, r3) =>
  (litChar '-' r3).bind fun r4 =>
  (takeExactDigits 2 r4).bind fun (_, r5) =>
  (litChar ' ' r5).bind fun r6 =>
  (takeExactDigits 2 r6).bind fun (_, r7) =>
  (litChar ':' r7).bind fun r8 =>
  (takeExactDigits 2 r8).bind fun (_, r9) =>
  (litChar ':' r9).bind fun r10 =>
  (takeExactDigits 2 r10).bind fun (_, r11) =>
  (litChar sep r11).bind fun r12 =>
  (takeExactDigits 3 r12).map fun (_, r13) =>
  (s.take 23, r13)

/-- The `loguru` pattern
`(?P<timestamp>…) \s*\|\s* (?P<level>\w+) \s*\|\s*
 (?P<module>\w+):(?P<function>\w+):(?P<line>\d+) \s*-\s* (?P<message>.*)`
anchored at the start (`pattern.match`); returns
`(timestamp, level, module, function, line, message)`. -/
def matchLoguru (s : Str) : Option (Str × Str × Str × Str × Str × Str) :=
  (matchTs23 '.' s).bind fun (ts, r1) =>
  (litChar '|' (skipSpaces r1)).bind fun r2 =>
  let (lvl, r3) := (skipSpaces r2).span isWordChar
  if lvl.isEmpty then none else
  (litChar '|' (skipSpaces r3)).bind fun r4 =>
  let (md, r5) := (skipSpaces r4).span isWordChar
  if md.isEmpty then none else
  (litChar ':' r5).bind fun r6 =>
  let (fn, r7) := r6.span isWordChar
  if fn.isEmpty then none else
  (litChar ':' r7).bind fun r8 =>
  let (ln, r9) := r8.span Char.isDigit
  if ln.isEmpty then none else
  (litChar '-' (skipSpaces r9)).map fun r10 =>
  (ts, lvl, md, fn, ln, skipSpaces r10)

/-- The `standard` pattern
`(?P<timestamp>…,\d{3}) \s* (?P<level>\w+) \s* (?P<logger>\w+) \s*
 (?P<message>.*)`; returns `(timestamp, level, logger, message)`.

When the maximal word run `w` after the timestamp is followed (possibly via
whitespace) by another word character, greedy matching splits at the runs;
otherwise the engine backtracks exactly one character: `level = w` minus its
last character and `logger` = that character (failing when `w` is a single
character). -/
def matchStandard (s : Str) : Option (Str × Str × Str × Str) :=
  (matchTs23 ',' s).bind fun (ts, r1) =>
  let (w, r2) := (skipSpaces r1).span isWordChar
  if w.isEmpty then none else
  let r3 := skipSpaces r2
  if (r3.head?.map isWordChar).getD false then
    let (w2, r4) := r3.span isWordChar
    some (ts, w, w2, skipSpaces r4)
  else
    match w.reverse with
    | lc :: wrev =>
        if wrev.isEmpty then none
        else some (ts, wrev.reverse, [lc], skipSpaces r2)
    | [] => none

/-- The alternatives of the `simple` pattern, in alternation order. -/
def levelAlts : List Str :=
  ["INFO".toList, "DEBUG".toList, "WARNING".toList, "ERROR".toList,
   "CRITICAL".toList]

/-- The `simple` pattern `(?P<level>INFO|DEBUG|WARNING|ERROR|CRITICAL):\s*
(?P<message>.*)` anchored at the start; the alternatives are prefix-free, so
at most one can match. -/
def matchSimple (s : Str) : Option (Str × Str) :=
  match levelAlts.find? (fun L => L.isPrefixOf s) with
  | some L => (litChar ':' (s.drop L.length)).map fun r => (L, skipSpaces r)
  | none => none

/-- One parsed log entry, the dict built by `_parse_log_line`. -/
structure MonitorEntry where
  timestamp : Instant
  level : Str
  logger_name : Str
  message : Str
  module : Str
  function : Str
  line : Option Nat
  raw_line : Str
  pattern_type : Str
  deriving Repr, DecidableEq

/-- `LogMonitor._parse_log_line`: try `loguru`, `standard`, `simple` on the
stripped line, first match wins; an unmatched line becomes the best-effort
entry with `level 'INFO'`, `logger_name 'unknown'` and the current time.
Both branches of the Python function return a dict, so the declared
`Optional` result is in fact always present. -/
def parseLogLine (now : Instant) (line : Str) : MonitorEntry :=
  let t := pyStrip line
  match matchLoguru t with
  | some (ts, lvl, md, fn, ln, msg) =>
      { timestamp := normalizeTimestamp now ts, level := lvl,
        logger_name := md, message := pyStrip msg, module := md,
        function := fn, line := some (natOfDigits ln), raw_line := line,
        pattern_type := "loguru".toList }
  | none =>
  match matchStandard t with
  | some (ts, lvl, lg, msg) =>
      { timestamp := normalizeTimestamp now ts, level := lvl,
        logger_name := lg, message := pyStrip msg, module := [],
        function := [], line := none, raw_line := line,
        pattern_type := "standard".toList }
  | none =>
  match matchSimple t with
  | some (lvl, msg) =>
      { timestamp := now, level := lvl, logger_name := "main".toList,
        message := pyStrip msg, module := [], function := [], line := none,
        raw_line := line, pattern_type := "simple".toList }
  | none =>
      { timestamp := now, level := "INFO".toList,
        logger_name := "unknown".toList, message := pyStrip line,
        module := [], function := [], line := none, raw_line := line,
        pattern_type := "unknown".toList }

/-- `LogMonitor._parse_log_content`: strip the chunk, split on `'\n'`, skip
blank lines, parse the rest (`_parse_log_line` always returns a truthy
dict, so the `if log_entry:` guard never drops one). -/
def parseLogContent (now : Instant) (content : Str) : List MonitorEntry :=
  ((pyStrip content).splitOn '\n').filterMap fun l =>
    if (pyStrip l).isEmpty then none else some (parseLogLine now l)

/-- `self.max_buffer_size` from `LogMonitor.__init__`. -/
def max_buffer_size : Nat := 1000

/-- `_add_to_buffer` with the capacity as a parameter (the instance uses
`max_buffer_size`): append, then keep the last `cap` entries if over. -/
def addToBufferCap (cap : Nat) (buf : List α) (e : α) : List α :=
  let b := buf ++ [e]
  if b.length > cap then pyTail b cap else b

/-- `LogMonitor._add_to_buffer`. -/
def addToBuffer (buf : List MonitorEntry) (e : MonitorEntry) :
    List MonitorEntry :=
  addToBufferCap max_buffer_size buf e

/-- `LogMonitor.get_recent_logs` (Python default `limit=100`):
`log_buffer[-limit:] if len(log_buffer) > limit else log_buffer`. -/
def get_recent_logs (buf : List MonitorEntry) (limit : Nat) :
    List MonitorEntry :=
  if buf.length > limit then pyTail buf limit else buf

/-- Keyword filter of `search_logs`: skipped when `keyword` is falsy (`None`
or empty); otherwise case-insensitive containment in the message. -/
def keywordPass (kw : Option Str) (e : MonitorEntry) : Bool :=
  match kw with
  | none => true
  | some k => k.isEmpty || pyContains (pyLower e.message) (pyLower k)

/-- Level filter of `search_logs`: skipped when `level` is falsy; otherwise
the entry's level must equal `level.upper()`. -/
def levelPass (lv : Option Str) (e : MonitorEntry) : Bool :=
  match lv with
  | none => true
  | some l => l.isEmpty || e.level == pyUpper l

/-- Start-time filter: a given, parseable `start_time` (`some (some t)`)
excludes entries strictly before it; an unparseable one (`some none`) is a
`ValueError`, `pass`ed over.  Entry timestamps are `isoformat()` strings and
always re-parse to the instant they denote. -/
def startPass (st : Option (Option Instant)) (e : MonitorEntry) : Bool :=
  match st with
  | some (some t) => !(Instant.lt e.timestamp t)
  | _ => true

/-- End-time filter, symmetric to `startPass`. -/
def endPass (et : Option (Option Instant)) (e : MonitorEntry) : Bool :=
  match et with
  | some (some t) => !(Instant.lt t e.timestamp)
  | _ => true

/-- All four filters of the `search_logs` loop body. -/
def searchPred (kw lv : Option Str) (st et : Option (Option Instant))
    (e : MonitorEntry) : Bool :=
  keywordPass kw e && levelPass lv e && startPass st e && endPass et e

/-- `LogMonitor.search_logs` (Python default `limit=100`): collect the
entries passing every supplied filter, in buffer order, then return
`filtered[-limit:] if len(filtered) > limit else filtered`. -/
def search_logs (buf : List MonitorEntry) (kw lv : Option Str)
    (st et : Option (Option Instant)) (limit : Nat) : List MonitorEntry :=
  let filtered := buf.filter (searchPred kw lv st et)
  if filtered.length > limit then pyTail filtered limit else filtered

end LogMonitorP

namespace LogServiceP

open XianyuCore LogMonitorP

/-!
## `LogService.parse_log_line` (src/web_frontend/services/log_service.py)

The frontend parser.  It strips the line, filters blanks and `#` comments,
then tries three patterns with `re.search` (unanchored), in order:

* A: `(\d{4}-\d{2}-\d{2} \d{2}:\d{2}:\d{2}\.\d{3}) \| (\w+)\s+\|
     ([^:]+):(\d+) - (.+)`
* B: `.*?(\d{4}-\d{2}-\d{2} \d{2}:\d{2}:\d{2}\.\d{3}).*?\| (\w+).*?\|
     ([^:]+):(\d+) - (.+)`
* C: `(\d{4}-\d{2}-\d{2} \d{2}:\d{2}:\d{2}) - (\w+) - (.+)`

`re.search` is modelled by trying an anchored match at every start position
in order; for pattern B the lazy `.*?` gaps additionally enumerate, in
ascending order, the timestamp start, then each `'|'` position for the level
part, then each later `'|'` position for the module part (a reluctant gap
extends exactly through such candidates; within a fixed choice the quantified
classes are disjoint from their followers, so matching is deterministic).
Groups follow regex preference: earlier reluctant gaps minimal, `\w+`/
`[^:]+`/`\d+` maximal.
-/

/-- The 19-character timestamp shape `\d{4}-\d{2}-\d{2} \d{2}:\d{2}:\d{2}`
of pattern C. -/
def matchTs19 (s : Str) : Option (Str × Str) :=
  (takeExactDigits 4 s).bind fun (_, r1) =>
  (litChar '-' r1).bind fun r2 =>
  (takeExactDigits 2 r2).bind fun (_, r3) =>
  (litChar '-' r3).bind fun r4 =>
  (takeExactDigits 2 r4).bind fun (_, r5) =>
  (litChar ' ' r5).bind fun r6 =>
  (takeExactDigits 2 r6).bind fun (_, r7) =>
  (litChar ':' r7).bind fun r8 =>
  (takeExactDigits 2 r8).bind fun (_, r9) =>
  (litChar ':' r9).bind fun r10 =>
  (takeExactDigits 2 r10).map fun (_, r11) =>
  (s.take 19, r11)

/-- The common tail `([^:]+):(\d+) - (.+)` of patterns A and B:
maximal non-colon run, `':'`, maximal digit run, literal `' - '`, nonempty
rest; returns `(module, line_num, message)`. -/
def matchModLineMsg (s : Str) : Option (Str × Str × Str) :=
  let (md, r1) := s.span (fun c => c ≠ ':')
  if md.isEmpty then none else
  (litChar ':' r1).bind fun r2 =>
  let (ln, r3) := r2.span Char.isDigit
  if ln.isEmpty then none else
  (litChar ' ' r3).bind fun r4 =>
  (litChar '-' r4).bind fun r5 =>
  (litChar ' ' r5).bind fun r6 =>
  if r6.isEmpty then none else some (md, ln, r6)

/-- Anchored attempt of pattern A at the start of `s`:
timestamp, literal `' | '`, `(\w+)`, `\s+`, literal `'| '`, then the common
tail. -/
def matchAAt (s : Str) : Option (Str × Str × Str × Str × Str) :=
  (matchTs23 '.' s).bind fun (ts, r1) =>
  (litChar ' ' r1).bind fun r2 =>
  (litChar '|' r2).bind fun r3 =>
  (litChar ' ' r3).bind fun r4 =>
  let (lvl, r5) := r4.span isWordChar
  if lvl.isEmpty then none else
  let (sp, r6) := r5.span isPySpace
  if sp.isEmpty then none else
  (litChar '|' r6).bind fun r7 =>
  (litChar ' ' r7).bind fun r8 =>
  (matchModLineMsg r8).map fun (md, ln, msg) => (ts, lvl, md, ln, msg)

/-- `re.search` for pattern A: try `matchAAt` at every suffix, leftmost
match first. -/
def searchA : Str → Option (Str × Str × Str × Str × Str)
  | [] => matchAAt []
  | s@(_ :: t) =>
      match matchAAt s with
      | some g => some g
      | none => searchA t

/-- The `'\| ([^:]+):(\d+) - (.+)'` part of pattern B, tried at each
suffix beginning with the candidate `'|'` (ascending = reluctant gap). -/
def searchBTail : Str → Option (Str × Str × Str)
  | [] => none
  | '|' :: ' ' :: r =>
      match matchModLineMsg r with
      | some g => some g
      | none => searchBTail (' ' :: r)
  | _ :: t => searchBTail t

/-- The `'\| (\w+)'` part of pattern B followed by its tail: at each
candidate `'|'` (ascending), require `' '` and a nonempty maximal word run,
then search the tail after that run's first character (any `'|'` later in
the run is impossible, `\w` excludes it). -/
def searchBLevel : Str → Option (Str × Str × Str × Str)
  | [] => none
  | '|' :: ' ' :: r =>
      (match r.span isWordChar with
       | ([], _) => none
       | (lvl, rest) =>
           match searchBTail rest with
           | some (md, ln, msg) => some (lvl, md, ln, msg)
           | none => none).orElse
      fun _ => searchBLevel (' ' :: r)
  | _ :: t => searchBLevel t

/-- `re.search` for pattern B: the leading `.*?` enumerates timestamp start
positions in ascending order; after a timestamp match, `searchBLevel` covers
the two reluctant gaps. -/
def searchB : Str → Option (Str × Str × Str × Str × Str)
  | [] => none
  | s@(_ :: t) =>
      (match matchTs23 '.' s with
       | some (ts, r1) =>
           match searchBLevel r1 with
           | some (lvl, md, ln, msg) => some (ts, lvl, md, ln, msg)
           | none => none
       | none => none).orElse
      fun _ => searchB t

/-- Anchored attempt of pattern C: timestamp, `' - '`, `(\w+)`, `' - '`,
`(.+)`. -/
def matchCAt (s : Str) : Option (Str × Str × Str) :=
  (matchTs19 s).bind fun (ts, r1) =>
  (litChar ' ' r1).bind fun r2 =>
  (litChar '-' r2).bind fun r3 =>
  (litChar ' ' r3).bind fun r4 =>
  let (lvl, r5) := r4.span isWordChar
  if lvl.isEmpty then none else
  (litChar ' ' r5).bind fun r6 =>
  (litChar '-' r6).bind fun r7 =>
  (litChar ' ' r7).bind fun r8 =>
  if r8.isEmpty then none else some (ts, lvl, r8)

/-- `re.search` for pattern C. -/
def searchC : Str → Option (Str × Str × Str)
  | [] => matchCAt []
  | s@(_ :: t) =>
      match matchCAt s with
      | some g => some g
      | none => searchC t

/-- `LogService._categorize_message`: fixed keyword-priority order —
heartbeat/connection > user message > bot reply > manual takeover > error >
default `'system'`. -/
def categorizeMessage (message : Str) : Str :=
  if ["心跳".toList, "连接".toList, "Token".toList, "WebSocket".toList,
      "注册完成".toList].any (fun k => pyContains message k) then
    "heartbeat".toList
  else if "用户:".toList.isPrefixOf message ||
      pyContains message "用户名".toList then
    "user_message".toList
  else if "机器人回复:".toList.isPrefixOf message ||
      pyContains message "AI回复".toList then
    "bot_reply".toList
  else if ["接管".toList, "人工".toList, "手动".toList, "🔴".toList,
      "🟢".toList].any (fun k => pyContains message k) then
    "manual_mode".toList
  else if ["错误".toList, "失败".toList, "异常".toList, "error".toList,
      "Error".toList, "Exception".toList].any
      (fun k => pyContains message k) then
    "error".toList
  else
    "system".toList

/-- `self.log_levels` of `LogService.__init__`. -/
def log_levels : List Str :=
  ["DEBUG".toList, "INFO".toList, "WARNING".toList, "ERROR".toList,
   "CRITICAL".toList]

/-- One parsed frontend log entry (the dict built by
`LogService.parse_log_line`).  The record's `'timestamp'` value is the
`strftime('%Y-%m-%d %H:%M:%S')` rendering of the parsed datetime, i.e. the
instant truncated to whole seconds. -/
structure ServiceEntry where
  timestamp : Instant
  level : Str
  module : Str
  line_num : Str
  message : Str
  raw_line : Str
  category : Str
  deriving Repr, DecidableEq

/-- Truncation to whole seconds performed by
`strftime('%Y-%m-%d %H:%M:%S')`. -/
def truncSec (i : Instant) : Instant := { i with usec := 0 }

/-- Timestamp handling of the matched branch: `'.' in timestamp_str` picks
`%f` parsing; a `ValueError` falls back to `datetime.now()`. -/
def serviceParseTs (now : Instant) (ts : Str) : Instant :=
  if ts.contains '.' then
    match strptime (some '.') ts with
    | some i => i
    | none => now
  else
    match strptime none ts with
    | some i => i
    | none => now

/-- `LogService.parse_log_line`.  Strip; blank lines and `'#'` comments
yield `None`; try patterns A, B (five groups) then C (three groups, with
`module='main'`, `line_num='0'`); an unmatched line containing one of
`log_levels` as a substring of its uppercasing becomes the best-effort
record with `level='INFO'` and `module='unknown'`; otherwise `None`.
(`raw_line` stores the stripped line — the function rebinds `line` to
`line.strip()` before anything else.) -/
def parse_log_line (now : Instant) (line0 : Str) : Option ServiceEntry :=
  let line := pyStrip line0
  if line.isEmpty || "#".toList.isPrefixOf line then none
  else
    match searchA line with
    | some (ts, lvl, md, ln, msg) =>
        some { timestamp := truncSec (serviceParseTs now ts),
               level := pyUpper lvl, module := md, line_num := ln,
               message := pyStrip msg, raw_line := line,
               category := categorizeMessage msg }
    | none =>
    match searchB line with
    | some (ts, lvl, md, ln, msg) =>
        some { timestamp := truncSec (serviceParseTs now ts),
               level := pyUpper lvl, module := md, line_num := ln,
               message := pyStrip msg, raw_line := line,
               category := categorizeMessage msg }
    | none =>
    match searchC line with
    | some (ts, lvl, msg) =>
        some { timestamp := truncSec (serviceParseTs now ts),
               level := pyUpper lvl, module := "main".toList,
               line_num := "0".toList, message := pyStrip msg,
               raw_line := line, category := categorizeMessage msg }
    | none =>
        if log_levels.any (fun L => pyContains (pyUpper line) L) then
          some { timestamp := truncSec now, level := "INFO".toList,
                 module := "unknown".toList, line_num := "0".toList,
                 message := line, raw_line := line,
                 category := "system".toList }
        else none

end LogServiceP

namespace BroadcastM

/-!
## `ConnectionManager.broadcast_log` (src/web_manager/backend/app.py)

Subscribers are websocket connections; whether `send_json` succeeds for a
given connection in this publish call is part of the connection's model
(`sendOk`).  The method guards each send with `try/except`, collects the
failed connections, and removes each of them afterwards with
`disconnect` (which is `list.remove` guarded by a membership test).
-/

/-- One registered websocket connection, with the outcome its `send_json`
would have in this publish call. -/
structure Conn where
  id : Nat
  sendOk : Bool
  deriving Repr, DecidableEq

/-- `ConnectionManager.disconnect`: remove the first occurrence, if the
connection is present (`if websocket in self.active_connections`). -/
def disconnect (active : List Conn) (c : Conn) : List Conn :=
  active.erase c

/-- The send loop of `broadcast_log`: for each connection in order, attempt
the send; an exception is caught and the connection is queued on
`disconnected`.  Returns `(delivered, disconnected)`, each in iteration
order. -/
def sendAll (conns : List Conn) : List Conn × List Conn :=
  conns.foldl
    (fun acc c =>
      if c.sendOk then (acc.1 ++ [c], acc.2) else (acc.1, acc.2 ++ [c]))
    ([], [])

/-- `ConnectionManager.broadcast_log`: when there are connections, send to
every one of them, then `disconnect` each failed one.  Returns the list of
connections that received the record and the new `active_connections`. -/
def broadcast_log (conns : List Conn) : List Conn × List Conn :=
  if conns.isEmpty then ([], conns)
  else
    let (delivered, disconnected) := sendAll conns
    (delivered, disconnected.foldl disconnect conns)

end BroadcastM

namespace Fixtures

open XianyuCore LogMonitorP

/-! Concrete inputs used to instantiate the theorems below. -/

/-- A fixed "current time" for evaluating the parsers. -/
def now0 : Instant := ⟨2025, 1, 1, 0, 0, 0, 0⟩

/-- The specification's §8 test line. -/
def c5line : Str :=
  "2024-01-20 10:30:00.123 | INFO | main:handle:42 - hello".toList

/-- A line matching none of the patterns of either parser but containing the
level keyword `ERROR`. -/
def errLine : Str := "boom ERROR happened".toList

/-- A concrete parsed entry (the §8 line through the backend parser). -/
def sampleEntry : MonitorEntry := parseLogLine now0 c5line

/-- A second, distinct concrete entry. -/
def sampleEntry2 : MonitorEntry := parseLogLine now0 errLine

/-- An OS oracle under which every pid is alive. -/
def aliveAll : Nat → Bool := fun _ => true

/-- An OS oracle under which no pid is alive. -/
def aliveNone : Nat → Bool := fun _ => false

/-- Backend supervisor state with no process recorded. -/
def pmIdle : ProcessManagerM.PMState := ⟨none, none, false⟩

/-- Backend supervisor state holding pid 5. -/
def pmRunning5 : ProcessManagerM.PMState := ⟨some 5, some 5, true⟩

/-- Flask supervisor state running pid 7. -/
def waRunning7 : WebAppPM.WAState := ⟨.running, some 7, true⟩

end Fixtures

/-!
# Theorems for the claims
-/

section Claims

open XianyuCore ProcessManagerM WebAppPM TailM LogMonitorP LogServiceP
  BroadcastM Fixtures

/-- C1, counterexample.  The claim says every stop() — even one in which
signalling/waiting/killing raises — returns with the handle cleared and a
following status() reporting `is_running = false`.  Concretely: pid 5 is
recorded and stays alive, and the terminate/wait block raises.  Then
`ProcessManager.stop_process` returns through its outer `except` without
calling `_cleanup_process_info`: `process_info` still holds pid 5 and the
next `get_status` reports `is_running = True`.  Likewise the Flask
`stop_main_process`'s exception handler leaves `self.process` set. -/
theorem c1_stop_cleanup_counterexample :
    (stop_process aliveAll TermOutcome.raisesStillAlive pmRunning5).2.processInfoPid
        = some 5 ∧
      (get_status aliveAll
          (stop_process aliveAll TermOutcome.raisesStillAlive pmRunning5).2).1.is_running
        = true ∧
      (stop_main_process WAStopOutcome.raises waRunning7).2.process = some 7 :=
  ⟨rfl, rfl, rfl⟩

/-- C1, amended.  When the terminate/wait/kill phase does not raise, both
stops do end with state `stopped` and the handle cleared (`process = None`,
`process_info = {}`), an immediate status() reports `is_running = false`,
and a repeated stop() observes no running process.  When that phase raises:
`stop_main_process` still sets state to `stopped` (so a repeated stop sees
not-running) but keeps the dangling `self.process`; `stop_process` returns
`success = False` leaving its state — in particular `process_info` —
completely unchanged, so an immediate status() can still report
`is_running = true`. -/
theorem c1_stop_cleanup :
    (∀ (alive : Nat → Bool) (out : TermOutcome) (s : PMState),
        (get_status alive s).1.is_running = true → out.raises = false →
        (stop_process alive out s).2 = ⟨none, none, false⟩ ∧
          (get_status alive (stop_process alive out s).2).1.is_running = false ∧
          ∀ out2, (stop_process alive out2 (stop_process alive out s).2).1 =
            { success := true, message := "进程未在运行", pid := none }) ∧
    (∀ (out : WAStopOutcome) (s : WAState),
        s.status = WAStatus.running → out ≠ WAStopOutcome.raises →
        stop_main_process out s =
            ((true, "主进程已停止"), ⟨.stopped, none, false⟩) ∧
          ∀ out2, (stop_main_process out2 ⟨.stopped, none, false⟩).1 =
            (false, "主进程未在运行")) ∧
    (∀ (alive : Nat → Bool) (out : TermOutcome) (s : PMState),
        (get_status alive s).1.is_running = true → out.raises = true →
        (stop_process alive out s).1.success = false ∧
          (stop_process alive out s).2 = s) ∧
    (∀ s : WAState, s.status = WAStatus.running →
        stop_main_process WAStopOutcome.raises s =
          ((false, "停止失败"), { s with status := .stopped })) := by
  have hgs_run : ∀ (alive : Nat → Bool) (s : PMState),
      (get_status alive s).1.is_running = true → get_status alive s = (⟨true, s.processInfoPid⟩, s) := by
    intro alive s h
    unfold get_status at h ⊢
    rcases hpid : s.processInfoPid with _ | pid
    · rw [hpid] at h
      exact Bool.noConfusion h
    · rw [hpid] at h
      change (if alive pid = true then ((⟨true, some pid⟩ : PMStatus), s)
          else ((⟨false, none⟩ : PMStatus),
            cleanupProcessInfo s)).1.is_running = true at h
      change (if alive pid = true then ((⟨true, some pid⟩ : PMStatus), s)
          else ((⟨false, none⟩ : PMStatus), cleanupProcessInfo s)) =
        (⟨true, some pid⟩, s)
      by_cases ha : alive pid = true
      · rw [if_pos ha]
      · rw [if_neg ha] at h
        exact Bool.noConfusion h
  refine ⟨?_, ?_, ?_, ?_⟩
  · intro alive out s h hout
    have hg := hgs_run alive s h
    have hstop : (stop_process alive out s).2 = ⟨none, none, false⟩ ∧
        (stop_process alive out s).1.success = true := by
      unfold stop_process
      rw [hg]
      rcases out with _ | _ | _ | _ | _ <;>
        simp [cleanupProcessInfo, TermOutcome.raises] at hout ⊢
    refine ⟨hstop.1, ?_, ?_⟩
    · rw [hstop.1]; rfl
    · intro out2
      rw [hstop.1]
      rfl
  · intro out s hrun hout
    have : stop_main_process out s =
        ((true, "主进程已停止"), ⟨.stopped, none, false⟩) := by
      unfold stop_main_process
      rcases out with _ | _ | _ <;> simp [hrun] at hout ⊢
    exact ⟨this, fun out2 => rfl⟩
  · intro alive out s h hout
    have hg := hgs_run alive s h
    unfold stop_process
    rw [hg]
    rcases out with _ | _ | _ | _ | _ <;>
      simp [TermOutcome.raises] at hout ⊢
  · intro s hrun
    unfold stop_main_process
    simp [hrun]

/-- C1, witness for the amended theorem. -/
theorem c1_stop_cleanup_witness :
    ((stop_process aliveAll TermOutcome.graceful pmRunning5).2 =
        (⟨none, none, false⟩ : PMState)) ∧
      (stop_main_process WAStopOutcome.ok waRunning7 =
        ((true, "主进程已停止"), ⟨.stopped, none, false⟩)) ∧
      ((stop_process aliveAll TermOutcome.raisesStillAlive pmRunning5).2 =
        pmRunning5) ∧
      (stop_main_process WAStopOutcome.raises waRunning7 =
        ((false, "停止失败"), { waRunning7 with status := .stopped })) :=
  ⟨(c1_stop_cleanup.1 aliveAll .graceful pmRunning5 (by decide) (by decide)).1,
   (c1_stop_cleanup.2.1 .ok waRunning7 (by decide) (by decide)).1,
   (c1_stop_cleanup.2.2.1 aliveAll .raisesStillAlive pmRunning5 (by decide)
      (by decide)).2,
   c1_stop_cleanup.2.2.2 waRunning7 (by decide)⟩

/-- C2, counterexample.  The claim says every stop() on an already-stopped
supervisor returns `success = false`.  `ProcessManager.stop_process` called
with no process recorded instead returns `success = True` with the
not-running message (lines 301–307 of process_manager.py). -/
theorem c2_stop_not_running_counterexample :
    stop_process aliveNone TermOutcome.graceful pmIdle =
      ({ success := true, message := "进程未在运行", pid := none }, pmIdle) := by
  rfl

/-- C2, amended.  When no worker is running, the Flask
`stop_main_process` does fail with `success = false` and a not-running
message, while the backend `stop_process` succeeds idempotently:
`success = true`, message `'进程未在运行'`, `pid = None`. -/
theorem c2_stop_not_running :
    (∀ (s : WAState) (out : WAStopOutcome), s.status ≠ WAStatus.running →
      stop_main_process out s = ((false, "主进程未在运行"), s)) ∧
    (∀ (alive : Nat → Bool) (out : TermOutcome) (s : PMState),
      (get_status alive s).1.is_running = false →
      (stop_process alive out s).1 =
        { success := true, message := "进程未在运行", pid := none }) := by
  constructor
  · intro s out h
    unfold stop_main_process
    simp [h]
  · intro alive out s h
    unfold stop_process
    simp [h]

/-- C2, witness for the amended theorem. -/
theorem c2_stop_not_running_witness :
    stop_main_process WAStopOutcome.ok ⟨.stopped, none, false⟩ =
        ((false, "主进程未在运行"), ⟨.stopped, none, false⟩) ∧
      (stop_process aliveNone TermOutcome.graceful pmIdle).1 =
        { success := true, message := "进程未在运行", pid := none } :=
  ⟨c2_stop_not_running.1 ⟨.stopped, none, false⟩ .ok (by decide),
   c2_stop_not_running.2 aliveNone .graceful pmIdle (by decide)⟩

/-- C3, counterexample.  The claim says the tail loop's offset advances only
when the appended bytes were read successfully.  In
`LogMonitor._monitoring_loop` the assignment `last_position = current_size`
is unconditional: with the file at 6 bytes, the offset at 2 and the read
failing (`_read_new_content` returned `""`), nothing is delivered yet the
offset jumps to 6. -/
theorem c3_offset_advance_counterexample :
    monitorPoll (some ("abcdef".toList)) false 2 = ([], 6) ∧ (6 : Nat) ≠ 2 :=
  ⟨rfl, by decide⟩

/-- C3, amended.  A poll observing growth always advances the offset to the
observed size; a successful read delivers exactly the appended bytes, a
failed read delivers nothing and those bytes are skipped (at-most-once, not
at-least-once). -/
theorem c3_offset_advances_unconditionally :
    ∀ (content : Str) (readOk : Bool) (lastPos : Nat),
      lastPos < content.length →
      monitorPoll (some content) readOk lastPos =
        ((if readOk then content.drop lastPos else []), content.length) := by
  intro content readOk lastPos h
  unfold monitorPoll readNewContent
  simp only [h, if_pos]
  have hlen : (content.drop lastPos).length ≤ content.length - lastPos := by
    simp [List.length_drop]
  rw [List.take_of_length_le hlen]

/-- C3, witness for the amended theorem. -/
theorem c3_offset_advances_unconditionally_witness :
    monitorPoll (some ("abcdef".toList)) false 2 =
      ((if false then ("abcdef".toList).drop 2 else []),
       ("abcdef".toList).length) :=
  c3_offset_advances_unconditionally ("abcdef".toList) false 2 (by decide)

/-- C4, counterexample.  The claim covers both cited readers; the frontend
`LogService.read_new_logs` has no truncation branch.  After reading 4 bytes
and the file being truncated-and-rewritten to the 2-byte content `"bb"`, its
poll leaves the offset at 4 (not 0) and delivers nothing — the new content
is skipped, not re-read from the start. -/
theorem c4_truncation_counterexample :
    readNewLogsStep (some ("bb".toList)) 4 = ([], 4) ∧ (4 : Nat) ≠ 0 :=
  ⟨rfl, by decide⟩

/-- C4, amended.  In the backend tail loop a poll observing the size below
the offset resets the offset to 0 and delivers nothing, and a successful
poll from offset 0 delivers exactly the file's (post-truncation) content —
never pre-truncation content.  The frontend `read_new_logs`, however,
performs no truncation detection: observing the size below the offset it
keeps the stale offset and delivers nothing until the file regrows past
it. -/
theorem c4_truncation_reset :
    (∀ (content : Str) (readOk : Bool) (lastPos : Nat),
        content.length < lastPos →
        monitorPoll (some content) readOk lastPos = ([], 0)) ∧
    (∀ c : Str, monitorPoll (some c) true 0 = (c, c.length)) ∧
    (∀ (content : Str) (lastPos : Nat), content.length < lastPos →
        readNewLogsStep (some content) lastPos = ([], lastPos)) := by
  refine ⟨?_, ?_, ?_⟩
  · intro content readOk lastPos h
    have h1 : ¬(content.length > lastPos) := by omega
    simp only [monitorPoll]
    rw [if_neg h1, if_pos h]
  · intro c
    unfold monitorPoll readNewContent
    rcases c with _ | ⟨a, t⟩
    · simp
    · simp [List.take_of_length_le]
  · intro content lastPos h
    simp [readNewLogsStep, List.drop_eq_nil_of_le (le_of_lt h),
      Nat.max_eq_left (le_of_lt h)]

/-- C4, witness for the amended theorem. -/
theorem c4_truncation_reset_witness :
    monitorPoll (some ("bb".toList)) true 4 = ([], 0) ∧
      monitorPoll (some ("bb".toList)) true 0 = ("bb".toList, ("bb".toList).length) ∧
      readNewLogsStep (some ("bb".toList)) 4 = ([], 4) :=
  ⟨c4_truncation_reset.1 ("bb".toList) true 4 (by decide),
   c4_truncation_reset.2.1 ("bb".toList),
   c4_truncation_reset.2.2 ("bb".toList) 4 (by decide)⟩

/-- The send loop accumulates successful and failed connections, in order. -/
theorem sendAll_foldl_eq (conns : List Conn) (acc : List Conn × List Conn) :
    conns.foldl
        (fun acc c =>
          if c.sendOk then (acc.1 ++ [c], acc.2) else (acc.1, acc.2 ++ [c]))
        acc =
      (acc.1 ++ conns.filter (·.sendOk),
       acc.2 ++ conns.filter (fun c => !c.sendOk)) := by
  induction conns generalizing acc with
  | nil => simp
  | cons c t ih =>
      by_cases hc : c.sendOk <;>
        simp [List.foldl_cons, hc, ih, List.filter_cons]

/-- `sendAll` splits the connection list by send outcome, preserving
order. -/
theorem sendAll_eq (conns : List Conn) :
    sendAll conns =
      (conns.filter (·.sendOk), conns.filter (fun c => !c.sendOk)) := by
  unfold sendAll
  simpa using sendAll_foldl_eq conns ([], [])

/-- Erasing each member of a duplicate-free sublist `d` from a
duplicate-free list `l` filters `l` down to the non-members of `d`. -/
theorem foldl_erase_eq_filter (d : List Conn) :
    ∀ l : List Conn, (∀ x ∈ d, x ∈ l) → d.Nodup → l.Nodup →
      d.foldl List.erase l = l.filter (fun x => !d.contains x) := by
  induction d with
  | nil =>
      intro l _ _ _
      simp [List.contains_nil]
  | cons a d' ih =>
      intro l hsub hnd hnl
      have hstep : (a :: d').foldl List.erase l = d'.foldl List.erase (l.erase a) :=
        rfl
      have hsub' : ∀ x ∈ d', x ∈ l.erase a := by
        intro x hx
        have hxl : x ∈ l := hsub x (List.mem_cons_of_mem a hx)
        have hne : x ≠ a := by
          intro hxa
          exact (List.nodup_cons.mp hnd).1 (hxa ▸ hx)
        exact (List.mem_erase_of_ne hne).mpr hxl
      have h1 := ih (l.erase a) hsub' (List.nodup_cons.mp hnd).2
        (hnl.erase a)
      rw [hstep, h1, hnl.erase_eq_filter a, List.filter_filter]
      refine List.filter_congr ?_
      intro x _
      simp only [List.contains_cons, Bool.not_or, bne]
      exact Bool.and_comm _ _

/-- C9, confirmed.  For a publish over any (duplicate-free) subscriber set:
the publisher function returns normally on every input — per-connection
exceptions are absorbed by the `try/except` around `send_json`; the record
is delivered to exactly the connections whose send succeeds, regardless of
failures of connections earlier in the iteration; and the new
`active_connections` list retains exactly the successful connections, i.e.
each failed subscriber has been removed before the call returns. -/
theorem c9_broadcast_isolates_failures :
    ∀ conns : List Conn, conns.Nodup →
      broadcast_log conns =
        (conns.filter (·.sendOk), conns.filter (·.sendOk)) := by
  intro conns hnd
  unfold broadcast_log
  by_cases hemp : conns.isEmpty
  · rw [if_pos hemp]
    rcases conns with _ | ⟨c, t⟩
    · simp
    · simp [List.isEmpty] at hemp
  · rw [if_neg hemp, sendAll_eq]
    have hfold := foldl_erase_eq_filter (conns.filter (fun c => !c.sendOk))
      conns (fun x hx => List.mem_of_mem_filter hx)
      (hnd.filter _) hnd
    show (conns.filter (·.sendOk),
        List.foldl disconnect conns (conns.filter (fun c => !c.sendOk))) =
      (conns.filter (·.sendOk), conns.filter (·.sendOk))
    have hdis : List.foldl disconnect conns (conns.filter (fun c => !c.sendOk)) =
        List.foldl List.erase conns (conns.filter (fun c => !c.sendOk)) := rfl
    rw [hdis, hfold]
    refine Prod.ext rfl ?_
    refine List.filter_congr ?_
    intro x hx
    show (!(conns.filter (fun c => !c.sendOk)).contains x) = x.sendOk
    rcases hok : x.sendOk with _ | _
    · have hmem : x ∈ conns.filter (fun c => !c.sendOk) :=
        List.mem_filter.mpr ⟨hx, by simp [hok]⟩
      have hcont : (conns.filter (fun c => !c.sendOk)).contains x = true :=
        List.elem_iff.mpr hmem
      rw [hcont]
      rfl
    · have hnmem : x ∉ conns.filter (fun c => !c.sendOk) := by
        intro hmem
        have h2 := (List.mem_filter.mp hmem).2
        simp [hok] at h2
      have hcont : (conns.filter (fun c => !c.sendOk)).contains x = false := by
        rcases hc2 : (conns.filter (fun c => !c.sendOk)).contains x with _ | _
        · exact hc2
        · exact absurd (List.elem_iff.mp hc2) hnmem
      rw [hcont]
      rfl

/-- One push keeps exactly the last `cap` entries (for `cap ≥ 1`). -/
theorem addToBufferCap_keeps_tail {α : Type} (cap : Nat) (hcap : 1 ≤ cap)
    (l : List α) (e : α) :
    addToBufferCap cap (l.drop (l.length - cap)) e =
      (l ++ [e]).drop ((l ++ [e]).length - cap) := by
  unfold addToBufferCap pyTail
  rcases Nat.lt_or_ge l.length cap with hlt | hge
  · rw [Nat.sub_eq_zero_of_le (Nat.le_of_lt hlt), List.drop_zero]
    have h1 : ¬((l ++ [e]).length > cap) := by
      simp only [List.length_append, List.length_cons, List.length_nil]
      omega
    rw [if_neg h1]
    have h2 : (l ++ [e]).length - cap = 0 := by
      simp only [List.length_append, List.length_cons, List.length_nil]
      omega
    rw [h2, List.drop_zero]
  · have hlen : (l.drop (l.length - cap)).length = cap := by
      rw [List.length_drop]; omega
    have h1 : (l.drop (l.length - cap) ++ [e]).length > cap := by
      simp only [List.length_append, List.length_cons, List.length_nil, hlen]
      omega
    rw [if_pos h1, if_neg (show ¬cap = 0 by omega)]
    have h2 : (l.drop (l.length - cap) ++ [e]).length - cap = 1 := by
      simp only [List.length_append, List.length_cons, List.length_nil, hlen]
      omega
    rw [h2]
    have h4 : (1 : Nat) ≤ (l.drop (l.length - cap)).length := by omega
    rw [List.drop_append_of_le_length h4, List.drop_drop]
    have h5 : (l ++ [e]).length - cap = l.length - cap + 1 := by
      simp only [List.length_append, List.length_cons, List.length_nil]
      omega
    rw [h5,
      List.drop_append_of_le_length (show l.length - cap + 1 ≤ l.length by omega)]

/-- Folding pushes from the empty buffer keeps the last `cap` entries. -/
theorem foldl_addToBufferCap {α : Type} (cap : Nat) (hcap : 1 ≤ cap)
    (es : List α) :
    es.foldl (addToBufferCap cap) [] = es.drop (es.length - cap) := by
  induction es using List.reverseRecOn with
  | nil => simp
  | append_singleton l e ih =>
      rw [List.foldl_append, List.foldl_cons, List.foldl_nil, ih,
        addToBufferCap_keeps_tail cap hcap l e]

/-- C8, counterexample.  The claim says `get_recent_logs(limit)` returns at
most `limit` records.  With `limit = 0` and two buffered records the Python
slice `log_buffer[-0:]` is the whole buffer, so 2 records are returned. -/
theorem c8_history_ring_counterexample :
    (get_recent_logs [sampleEntry, sampleEntry2] 0).length = 2 ∧
      ¬((2 : Nat) ≤ 0) :=
  ⟨rfl, by decide⟩

/-- C8, amended.  After any sequence of pushes into an empty buffer the
buffer holds exactly the last `K = 1000` pushed records in arrival order
(so at most `K`, evicting oldest first), and `get_recent_logs limit` for
`limit ≥ 1` returns exactly the at-most-`limit` most recent records in
arrival order; being a pure query it leaves the buffer unchanged.  For
`limit = 0` the Python slice `[-0:]` makes it return the entire buffer
instead. -/
theorem c8_history_ring :
    (∀ es : List MonitorEntry,
        es.foldl addToBuffer [] = es.drop (es.length - max_buffer_size) ∧
          (es.foldl addToBuffer []).length ≤ max_buffer_size) ∧
    (∀ (buf : List MonitorEntry) (limit : Nat), 1 ≤ limit →
        get_recent_logs buf limit = buf.drop (buf.length - limit) ∧
          (get_recent_logs buf limit).length ≤ limit) ∧
    (∀ buf : List MonitorEntry, get_recent_logs buf 0 = buf) := by
  have hcap : 1 ≤ max_buffer_size := by decide
  refine ⟨?_, ?_, ?_⟩
  · intro es
    have h1 : es.foldl addToBuffer [] =
        es.foldl (addToBufferCap max_buffer_size) [] := rfl
    rw [h1, foldl_addToBufferCap max_buffer_size hcap es]
    refine ⟨rfl, ?_⟩
    rw [List.length_drop]
    omega
  · intro buf limit hlim
    unfold get_recent_logs pyTail
    by_cases h : buf.length > limit
    · rw [if_pos h, if_neg (by omega)]
      refine ⟨rfl, ?_⟩
      rw [List.length_drop]
      omega
    · rw [if_neg h]
      have h0 : buf.length - limit = 0 := by omega
      rw [h0, List.drop_zero]
      exact ⟨rfl, by omega⟩
  · intro buf
    unfold get_recent_logs pyTail
    by_cases h : buf.length > 0
    · rw [if_pos h, if_pos rfl]
    · rw [if_neg h]

/-- C8, witness for the amended theorem. -/
theorem c8_history_ring_witness :
    get_recent_logs [sampleEntry, sampleEntry2] 1 =
      ([sampleEntry, sampleEntry2].drop
        ([sampleEntry, sampleEntry2].length - 1)) :=
  (c8_history_ring.2.1 [sampleEntry, sampleEntry2] 1 (by decide)).1

/-- C10, counterexample.  The implicit claim says at most `limit` records
are returned.  With no filters supplied and `limit = 0`, the final slice
`filtered_logs[-0:]` is all of `filtered_logs`: two records come back. -/
theorem c10_search_logs_counterexample :
    (search_logs [sampleEntry, sampleEntry2] none none none none 0).length = 2 ∧
      ¬((2 : Nat) ≤ 0) :=
  ⟨rfl, by decide⟩

/-- C10, amended.  Every record returned by `search_logs` comes from the
buffer and passes every supplied filter (keyword containment,
case-insensitively; level equality against the uppercased level; lower and
upper time bounds when given and parseable); the result is a suffix of the
filtered-in-buffer-order list, i.e. the last matching records; for
`limit ≥ 1` at most `limit` records are returned, while `limit = 0` returns
every matching record (Python `[-0:]`).  The buffer is read, never
written. -/
theorem c10_search_logs :
    ∀ (buf : List MonitorEntry) (kw lv : Option Str)
      (st et : Option (Option Instant)) (limit : Nat),
      (∀ e ∈ search_logs buf kw lv st et limit,
          e ∈ buf ∧ keywordPass kw e = true ∧ levelPass lv e = true ∧
            startPass st e = true ∧ endPass et e = true) ∧
      (1 ≤ limit → (search_logs buf kw lv st et limit).length ≤ limit) ∧
      search_logs buf kw lv st et limit <:+
          buf.filter (searchPred kw lv st et) ∧
      (limit = 0 →
        search_logs buf kw lv st et limit =
          buf.filter (searchPred kw lv st et)) := by
  intro buf kw lv st et limit
  have hsuffix : search_logs buf kw lv st et limit <:+
      buf.filter (searchPred kw lv st et) := by
    unfold search_logs pyTail
    by_cases h : (buf.filter (searchPred kw lv st et)).length > limit
    · rw [if_pos h]
      by_cases h0 : limit = 0
      · rw [if_pos h0]
      · rw [if_neg h0]
        exact List.drop_suffix _ _
    · rw [if_neg h]
  refine ⟨?_, ?_, hsuffix, ?_⟩
  · intro e he
    have hmem : e ∈ buf.filter (searchPred kw lv st et) := hsuffix.subset he
    have h2 := List.mem_filter.mp hmem
    have h3 := h2.2
    simp only [searchPred, Bool.and_eq_true] at h3
    exact ⟨h2.1, h3.1.1.1, h3.1.1.2, h3.1.2, h3.2⟩
  · intro hlim
    unfold search_logs pyTail
    by_cases h : (buf.filter (searchPred kw lv st et)).length > limit
    · rw [if_pos h, if_neg (by omega)]
      rw [List.length_drop]
      omega
    · rw [if_neg h]
      omega
  · intro h0
    subst h0
    unfold search_logs pyTail
    by_cases h : (buf.filter (searchPred kw lv st et)).length > 0
    · rw [if_pos h, if_pos rfl]
    · rw [if_neg h]

/-- C10, witness for the amended theorem. -/
theorem c10_search_logs_witness :
    (sampleEntry ∈ [sampleEntry] ∧ keywordPass none sampleEntry = true ∧
        levelPass none sampleEntry = true ∧ startPass none sampleEntry = true ∧
        endPass none sampleEntry = true) ∧
      (search_logs [sampleEntry] none none none none 1).length ≤ 1 :=
  ⟨(c10_search_logs [sampleEntry] none none none none 1).1 sampleEntry
     (show sampleEntry ∈ sampleEntry ::
        ([] : List MonitorEntry) from List.mem_cons_self _ _),
   (c10_search_logs [sampleEntry] none none none none 1).2.1 (by decide)⟩

/-- C5, counterexample.  The claim covers both cited parsers, but
`LogService.parse_log_line`'s patterns expect a `module:line` source
location (two fields), so the §8 line — whose location is
`main:handle:42` — matches none of them and lands in the keyword fallback:
`module` comes back `'unknown'`, not `'main'`. -/
theorem c5_parse_spec_line_counterexample :
    (LogServiceP.parse_log_line now0 c5line).map ServiceEntry.module =
        some ("unknown".toList) ∧
      "unknown".toList ≠ "main".toList :=
  ⟨rfl, by decide⟩

/-- C5, amended.  `LogMonitor._parse_log_line` on the §8 line returns
exactly the claimed record — the first pattern in the ordered dict
(`loguru`) matches and fills `timestamp 2024-01-20T10:30:00.123000`,
`level INFO`, `module main`, `function handle`, `line 42`,
`message hello` — while `LogService.parse_log_line` matches none of its
three patterns on this line and produces the best-effort record with
`level INFO` and `module 'unknown'` whose message is the whole line. -/
theorem c5_parse_spec_line :
    ∀ now : Instant,
      parseLogLine now c5line =
          { timestamp := ⟨2024, 1, 20, 10, 30, 0, 123000⟩,
            level := "INFO".toList, logger_name := "main".toList,
            message := "hello".toList, module := "main".toList,
            function := "handle".toList, line := some 42, raw_line := c5line,
            pattern_type := "loguru".toList } ∧
        LogServiceP.parse_log_line now c5line =
          some { timestamp := truncSec now, level := "INFO".toList,
                 module := "unknown".toList, line_num := "0".toList,
                 message := c5line, raw_line := c5line,
                 category := "system".toList } := by
  intro now
  exact ⟨rfl, rfl⟩

/-- C6, confirmed.  A non-blank, non-comment line matching none of the
ordered patterns but containing a level keyword is captured as a
best-effort record instead of being dropped: the frontend parser returns
`level 'INFO'`, `module 'unknown'`; the backend parser likewise returns its
fallback entry with `level 'INFO'` and the module designator
(`logger_name`) `'unknown'` — it does not even require the keyword. -/
theorem c6_unmatched_line_fallback :
    (∀ (now : Instant) (line : Str),
        (pyStrip line).isEmpty = false →
        "#".toList.isPrefixOf (pyStrip line) = false →
        searchA (pyStrip line) = none →
        searchB (pyStrip line) = none →
        searchC (pyStrip line) = none →
        log_levels.any (fun L => pyContains (pyUpper (pyStrip line)) L) = true →
        LogServiceP.parse_log_line now line =
          some { timestamp := truncSec now, level := "INFO".toList,
                 module := "unknown".toList, line_num := "0".toList,
                 message := pyStrip line, raw_line := pyStrip line,
                 category := "system".toList }) ∧
    (∀ (now : Instant) (line : Str),
        matchLoguru (pyStrip line) = none →
        matchStandard (pyStrip line) = none →
        matchSimple (pyStrip line) = none →
        parseLogLine now line =
          { timestamp := now, level := "INFO".toList,
            logger_name := "unknown".toList, message := pyStrip line,
            module := [], function := [], line := none, raw_line := line,
            pattern_type := "unknown".toList }) := by
  constructor
  · intro now line hne hnc hA hB hC hkw
    simp only [LogServiceP.parse_log_line]
    rw [hne, hnc, hA, hB, hC, hkw]
    rfl
  · intro now line hL hS hM
    simp only [parseLogLine]
    rw [hL, hS, hM]

/-- C6, witness: the concrete line `"boom ERROR happened"`. -/
theorem c6_unmatched_line_fallback_witness :
    LogServiceP.parse_log_line now0 errLine =
        some { timestamp := truncSec now0, level := "INFO".toList,
               module := "unknown".toList, line_num := "0".toList,
               message := pyStrip errLine, raw_line := pyStrip errLine,
               category := "system".toList } ∧
      parseLogLine now0 errLine =
        { timestamp := now0, level := "INFO".toList,
          logger_name := "unknown".toList, message := pyStrip errLine,
          module := [], function := [], line := none, raw_line := errLine,
          pattern_type := "unknown".toList } :=
  ⟨c6_unmatched_line_fallback.1 now0 errLine (by decide) (by decide)
     rfl rfl rfl (by decide),
   c6_unmatched_line_fallback.2 now0 errLine rfl rfl rfl⟩

/-- C7, counterexample.  The claim says a line whose first non-whitespace
character is `'#'` yields no record in every cited parser.  The backend
pipeline only filters blank lines: `"# hello"` passes
`_parse_log_content`'s blank check and `_parse_log_line` turns it into a
(best-effort) record, so one record is produced, not zero. -/
theorem c7_comment_line_counterexample :
    (parseLogContent now0 ("# hello".toList)).length = 1 ∧ (1 : Nat) ≠ 0 :=
  ⟨rfl, by decide⟩

/-- C7, amended.  The frontend parser returns `None` on blank lines and on
`'#'`-comment lines.  The backend drops blank lines (its
`_parse_log_content` parses exactly the lines whose strip is non-empty) but
has no comment filter: a line whose stripped form starts with `'#'` matches
no pattern and becomes the best-effort record instead of being dropped. -/
theorem c7_blank_and_comment_lines :
    (∀ (now : Instant) (line : Str), (pyStrip line).isEmpty = true →
        LogServiceP.parse_log_line now line = none) ∧
    (∀ (now : Instant) (line : Str),
        "#".toList.isPrefixOf (pyStrip line) = true →
        LogServiceP.parse_log_line now line = none) ∧
    (∀ (now : Instant) (content : Str),
        parseLogContent now content =
          (((pyStrip content).splitOn '\n').filter
            (fun l => !(pyStrip l).isEmpty)).map (parseLogLine now)) ∧
    (∀ (now : Instant) (line : Str),
        "#".toList.isPrefixOf (pyStrip line) = true →
        parseLogLine now line =
          { timestamp := now, level := "INFO".toList,
            logger_name := "unknown".toList, message := pyStrip line,
            module := [], function := [], line := none, raw_line := line,
            pattern_type := "unknown".toList }) := by
  have hhash : ∀ line : Str, "#".toList.isPrefixOf line = true →
      ∃ t, line = '#' :: t := by
    intro line h
    rcases line with _ | ⟨c, cs⟩
    · exact absurd h (by decide)
    · refine ⟨cs, ?_⟩
      have : ('#' == c) = true := by
        simpa [List.isPrefixOf] using h
      have hc : '#' = c := by
        exact eq_of_beq this
      rw [← hc]
  have hfm : ∀ (now : Instant) (ls : List Str),
      (ls.filterMap fun l =>
          if (pyStrip l).isEmpty = true then none
          else some (parseLogLine now l)) =
        (ls.filter (fun l => !(pyStrip l).isEmpty)).map (parseLogLine now) := by
    intro now ls
    induction ls with
    | nil => rfl
    | cons a t ih =>
        simp only [List.isEmpty_iff] at ih
        by_cases hp : pyStrip a = [] <;>
          simp [List.filterMap_cons, List.filter_cons, List.isEmpty_iff,
            hp, ih]
  refine ⟨?_, ?_, ?_, ?_⟩
  · intro now line h
    simp only [LogServiceP.parse_log_line]
    rw [h]
    rfl
  · intro now line h
    simp only [LogServiceP.parse_log_line]
    rw [h]
    simp
  · intro now content
    simp only [parseLogContent]
    exact hfm now _
  · intro now line h
    obtain ⟨t, ht⟩ := hhash (pyStrip line) h
    simp only [parseLogLine]
    rw [ht]
    rfl

/-- C7, witness for the amended theorem. -/
theorem c7_blank_and_comment_lines_witness :
    LogServiceP.parse_log_line now0 ("   ".toList) = none ∧
      LogServiceP.parse_log_line now0 (" # note".toList) = none ∧
      parseLogLine now0 ("# note".toList) =
        { timestamp := now0, level := "INFO".toList,
          logger_name := "unknown".toList,
          message := pyStrip ("# note".toList), module := [], function := [],
          line := none, raw_line := "# note".toList,
          pattern_type := "unknown".toList } :=
  ⟨c7_blank_and_comment_lines.1 now0 ("   ".toList) (by decide),
   c7_blank_and_comment_lines.2.1 now0 (" # note".toList) (by decide),
   c7_blank_and_comment_lines.2.2.2 now0 ("# note".toList) (by decide)⟩

/-- C9, witness. -/
theorem c9_broadcast_isolates_failures_witness :
    broadcast_log [⟨1, true⟩, ⟨2, false⟩, ⟨3, true⟩] =
      ([⟨1, true⟩, ⟨3, true⟩], [⟨1, true⟩, ⟨3, true⟩]) :=
  (c9_broadcast_isolates_failures [⟨1, true⟩, ⟨2, false⟩, ⟨3, true⟩]
      (by decide)).trans (by decide)

end Claims
